import Mathlib

/-!
Verification of the two pure algorithms of the `go-projects` repository:
the Luhn credit-card checksum (`credit-card-validator/main.go`) and the
Nutri-Score calculator (`nutritional-score/nutritionalscore.go`).

Go `float64` nutrient values are embedded as `ℚ` (the algorithms only
compare values against literal decimal thresholds, never compute with
them); Go `int` is embedded as `Int` (all quantities involved are tiny,
so overflow cannot occur).
-/

/-! ## Luhn checksum (credit-card-validator/main.go) -/

/-- `strconv.Atoi(string(char))` on a single rune: succeeds exactly on the
ASCII digits `'0'..'9'`, returning the digit value. -/
def charToDigit (c : Char) : Option Nat :=
  if '0' ≤ c ∧ c ≤ '9' then some (c.toNat - '0'.toNat) else none

/-- The first loop of `luhnAlgorithm`: convert every character to a digit,
failing (Go: `return false`) at any non-digit character. -/
def parseDigits : List Char → Option (List Nat)
  | [] => some []
  | c :: cs =>
    match charToDigit c, parseDigits cs with
    | some d, some ds => some (d :: ds)
    | _, _ => none

/-- Doubling with the Luhn adjustment: `doubled := d*2; if doubled > 9 then doubled -= 9`. -/
def luhnDouble (d : Nat) : Nat :=
  let doubled := d * 2
  if doubled > 9 then doubled - 9 else doubled

/-- The second loop of `luhnAlgorithm` (`for i := len(digits)-2; i >= 0; i -= 2`)
replaces `digits[i]` by `luhnDouble digits[i]` exactly at the indices
`n-2, n-4, ...`, i.e. the indices `i` with `i + 2 ≤ n` and `(n - i) % 2 = 0`.
`codeTransformFrom n i ds` rebuilds the array from position `i` on. -/
def codeTransformFrom (n : Nat) : Nat → List Nat → List Nat
  | _, [] => []
  | i, d :: rest =>
    (if i + 2 ≤ n ∧ (n - i) % 2 = 0 then luhnDouble d else d)
      :: codeTransformFrom n (i + 1) rest

def codeTransform (digits : List Nat) : List Nat :=
  codeTransformFrom digits.length 0 digits

/-- `luhnAlgorithm` from `credit-card-validator/main.go`: parse all
characters as digits (any failure yields `false`), double every second
digit from the right, sum, and test divisibility by 10. -/
def luhnAlgorithm (input : String) : Bool :=
  match parseDigits input.data with
  | none => false
  | some digits => (codeTransform digits).sum % 10 == 0

/-- The spec names the contract `IsValid`; it is `luhnAlgorithm`. -/
def IsValid (input : String) : Bool := luhnAlgorithm input

/-- Reference formulation for claim C3: walking from the right end of the
digit list, leave the last digit alone, double the second-to-last, and so
on alternately (this consumes the REVERSED digit list, so the head is the
last digit). -/
def luhnSpecTransform : List Nat → List Nat
  | [] => []
  | [d] => [d]
  | d0 :: d1 :: rest => d0 :: luhnDouble d1 :: luhnSpecTransform rest

/-- Validity as the spec sentence describes it: double every other digit
walking leftward from the second-to-last, sum all digits, valid iff the
sum is a multiple of 10. -/
def luhnSpecValid (digits : List Nat) : Bool :=
  (luhnSpecTransform digits.reverse).sum % 10 == 0

/-! ## Nutri-Score (nutritional-score/nutritionalscore.go) -/

/-- Go: `type ScoreType int`. Kept as `Int` so that tag values outside the
four named constants remain expressible, as they are in Go. -/
abbrev ScoreType := Int

def Food : ScoreType := 0
def Beverage : ScoreType := 1
def Water : ScoreType := 2
def Cheese : ScoreType := 3

structure NutritionalData where
  Energy : ℚ
  Sugars : ℚ
  SaturatedFattyAcids : ℚ
  Sodium : ℚ
  Fruits : ℚ
  Fiber : ℚ
  Protein : ℚ
  IsWater : Bool
  FoodType : ScoreType
  deriving DecidableEq

structure NutritionalScore where
  Value : Int
  Grade : String
  Positive : Int
  Negative : Int
  ScoreType : Int
  deriving DecidableEq

def gradeScale : List String := ["A", "B", "C", "D", "E"]

/- Fractional thresholds are written with `mkRat` so that they reduce in the
kernel: `mkRat 225 10 = 22.5`, `mkRat 135 10 = 13.5`, and so on. -/
def energyLevels : List ℚ := [3350, 3015, 2680, 2345, 2010, 1675, 1340, 1005, 670, 335]
def sugarsLevels : List ℚ := [45, 40, 36, 31, 27, mkRat 225 10, 18, mkRat 135 10, 9, mkRat 45 10]
def saturatedFattyAcidsLevels : List ℚ := [10, 9, 8, 7, 6, 5, 4, 3, 2, 1]
def sodiumLevels : List ℚ := [900, 810, 720, 630, 540, 450, 360, 270, 180, 90]
def fiberLevels : List ℚ := [mkRat 47 10, mkRat 37 10, mkRat 28 10, mkRat 19 10, mkRat 9 10]
def proteinLevels : List ℚ := [8, mkRat 64 10, mkRat 48 10, mkRat 32 10, mkRat 16 10]

def energyLevelsBeverage : List ℚ := [270, 240, 210, 180, 150, 120, 90, 60, 30, 0]
def sugarsLevelsBeverage : List ℚ := [mkRat 135 10, 12, mkRat 105 10, 9, mkRat 75 10, 6, mkRat 45 10, 3, mkRat 15 10, 0]

/-- `getPointsFromRange`: walk the level list with its index `i`, returning
`lenLevels - i` at the first level strictly exceeded by `v`, else `0`.
`lenLevels` is fixed at the initial length, as in the Go loop. -/
def getPointsFromRangeAux (v : ℚ) (lenLevels : Nat) : Nat → List ℚ → Int
  | _, [] => 0
  | i, l :: ls => if v > l then (lenLevels : Int) - (i : Int) else getPointsFromRangeAux v lenLevels (i + 1) ls

def getPointsFromRange (v : ℚ) (levels : List ℚ) : Int :=
  getPointsFromRangeAux v levels.length 0 levels

def EnergyKJ.GetPoints (e : ℚ) (st : ScoreType) : Int :=
  if st = Beverage then getPointsFromRange e energyLevelsBeverage
  else getPointsFromRange e energyLevels

def SugarGram.GetPoints (s : ℚ) (st : ScoreType) : Int :=
  if st = Beverage then getPointsFromRange s sugarsLevelsBeverage
  else getPointsFromRange s sugarsLevels

def SaturatedFattyAcids.GetPoints (sfa : ℚ) (_st : ScoreType) : Int :=
  getPointsFromRange sfa saturatedFattyAcidsLevels

def SodiumMilligram.GetPoints (s : ℚ) (_st : ScoreType) : Int :=
  getPointsFromRange s sodiumLevels

def FruitsPercent.GetPoints (f : ℚ) (st : ScoreType) : Int :=
  if st = Beverage then
    if f > 80 then 10
    else if f > 60 then 4
    else if f > 40 then 2
    else 0
  else
    if f > 80 then 5
    else if f > 60 then 2
    else if f > 40 then 1
    else 0

def FiberGram.GetPoints (f : ℚ) (_st : ScoreType) : Int :=
  getPointsFromRange f fiberLevels

def ProteinGram.GetPoints (p : ℚ) (_st : ScoreType) : Int :=
  getPointsFromRange p proteinLevels

/-- Go slice indexing `xs[i]` with an `int` index: defined when
`0 ≤ i < len xs` (out of range would panic, modelled by the fallback
`""` which the safety theorem shows is never reached). -/
def gradeAt (xs : List String) (i : Int) : String :=
  if h : 0 ≤ i ∧ i.toNat < xs.length then xs.get ⟨i.toNat, h.2⟩ else ""

/-- `CalcNutriGrade` from nutritionalscore.go. -/
def NutritionalData.CalcNutriGrade (ns : NutritionalData) (score : Int) : String :=
  if ns.FoodType = Food then
    gradeAt gradeScale (getPointsFromRange (score : ℚ) [18, 10, 2, -1])
  else if ns.FoodType = Water then
    gradeAt gradeScale 0
  else
    gradeAt gradeScale (getPointsFromRange (score : ℚ) [9, 5, 1, -2])

/-- `CalcNutritionalScore` from nutritionalscore.go. -/
def CalcNutritionalScore (n : NutritionalData) : NutritionalScore :=
  let st := n.FoodType
  if st ≠ Water then
    let fruitPoints := FruitsPercent.GetPoints n.Fruits st
    let fibrePoints := FiberGram.GetPoints n.Fiber st
    let negative := EnergyKJ.GetPoints n.Energy st + SugarGram.GetPoints n.Sugars st
      + SaturatedFattyAcids.GetPoints n.SaturatedFattyAcids st + SodiumMilligram.GetPoints n.Sodium st
    let positive := fruitPoints + fibrePoints + ProteinGram.GetPoints n.Protein st
    let value :=
      if st = Cheese then negative - positive
      else if negative ≥ 11 ∧ fruitPoints < 5 then negative - fibrePoints - fruitPoints
      else negative - positive
    { Value := value, Grade := n.CalcNutriGrade value, Positive := positive,
      Negative := negative, ScoreType := st }
  else
    { Value := 0, Grade := n.CalcNutriGrade 0, Positive := 0, Negative := 0, ScoreType := st }

/-! ## Fidelity of the `mkRat` thresholds to the decimal literals in the source -/

theorem sugarsLevels_eq_literals :
    sugarsLevels = [45, 40, 36, 31, 27, 22.5, 18, 13.5, 9, 4.5] := by
  norm_num [sugarsLevels, mkRat, Rat.normalize]

theorem fiberLevels_eq_literals :
    fiberLevels = [4.7, 3.7, 2.8, 1.9, 0.9] := by
  norm_num [fiberLevels, mkRat, Rat.normalize]

theorem proteinLevels_eq_literals :
    proteinLevels = [8, 6.4, 4.8, 3.2, 1.6] := by
  norm_num [proteinLevels, mkRat, Rat.normalize]

theorem sugarsLevelsBeverage_eq_literals :
    sugarsLevelsBeverage = [13.5, 12, 10.5, 9, 7.5, 6, 4.5, 3, 1.5, 0] := by
  norm_num [sugarsLevelsBeverage, mkRat, Rat.normalize]

/-! ## Properties of the generic threshold lookup -/

theorem getPointsFromRangeAux_bounds (v : ℚ) (len : Nat) :
    ∀ (ls : List ℚ) (i : Nat), i + ls.length ≤ len →
      0 ≤ getPointsFromRangeAux v len i ls ∧ getPointsFromRangeAux v len i ls ≤ (len : Int) - i := by
  intro ls
  induction ls with
  | nil => intro i h; simp only [getPointsFromRangeAux]; omega
  | cons l ls ih =>
    intro i h
    simp only [List.length_cons] at h
    simp only [getPointsFromRangeAux]
    split
    · omega
    · have := ih (i + 1) (by omega)
      omega

theorem getPointsFromRange_bounds (v : ℚ) (levels : List ℚ) :
    0 ≤ getPointsFromRange v levels ∧ getPointsFromRange v levels ≤ (levels.length : Int) := by
  have h := getPointsFromRangeAux_bounds v levels.length levels 0 (by omega)
  simpa [getPointsFromRange] using h

theorem getPointsFromRangeAux_mono {v w : ℚ} (hvw : v ≤ w) (len : Nat) :
    ∀ (ls : List ℚ) (i : Nat), i + ls.length ≤ len →
      getPointsFromRangeAux v len i ls ≤ getPointsFromRangeAux w len i ls := by
  intro ls
  induction ls with
  | nil => intro i _; simp [getPointsFromRangeAux]
  | cons l ls ih =>
    intro i h
    simp only [List.length_cons] at h
    simp only [getPointsFromRangeAux]
    by_cases hv : v > l
    · rw [if_pos hv, if_pos (lt_of_lt_of_le hv hvw)]
    · rw [if_neg hv]
      by_cases hw : w > l
      · rw [if_pos hw]
        have := getPointsFromRangeAux_bounds v len ls (i + 1) (by omega)
        omega
      · rw [if_neg hw]
        exact ih (i + 1) (by omega)

theorem getPointsFromRange_mono {v w : ℚ} (hvw : v ≤ w) (levels : List ℚ) :
    getPointsFromRange v levels ≤ getPointsFromRange w levels :=
  getPointsFromRangeAux_mono hvw levels.length levels 0 (by omega)

theorem getPointsFromRangeAux_of_forall_le (v : ℚ) (len : Nat) :
    ∀ (ls : List ℚ) (i : Nat), (∀ l ∈ ls, ¬ v > l) → getPointsFromRangeAux v len i ls = 0 := by
  intro ls
  induction ls with
  | nil => intro i _; simp [getPointsFromRangeAux]
  | cons l ls ih =>
    intro i h
    simp only [getPointsFromRangeAux]
    rw [if_neg (h l (List.mem_cons_self l ls))]
    exact ih (i + 1) fun x hx => h x (List.mem_cons_of_mem l hx)

theorem getPointsFromRangeAux_first_hit (v : ℚ) (len : Nat) :
    ∀ (ls : List ℚ) (i k : Nat) (hk : k < ls.length),
      (∀ l ∈ ls.take k, ¬ v > l) → v > ls.get ⟨k, hk⟩ →
      getPointsFromRangeAux v len i ls = (len : Int) - (i + k) := by
  intro ls
  induction ls with
  | nil => intro i k hk; simp at hk
  | cons l ls ih =>
    intro i k hk htake hget
    cases k with
    | zero =>
      simp only [List.get] at hget
      simp only [getPointsFromRangeAux, if_pos hget]
      omega
    | succ k =>
      simp only [List.take_succ_cons] at htake
      have hl : ¬ v > l := htake l (List.mem_cons_self l _)
      simp only [List.length_cons, Nat.succ_lt_succ_iff] at hk
      simp only [getPointsFromRangeAux, if_neg hl]
      have := ih (i + 1) k hk (fun x hx => htake x (List.mem_cons_of_mem l hx)) hget
      rw [this]
      omega

/-! ## The index-driven doubling loop matches the right-to-left description -/

theorem codeTransformFrom_append (n : Nat) :
    ∀ (xs ys : List Nat) (i : Nat),
      codeTransformFrom n i (xs ++ ys) = codeTransformFrom n i xs ++ codeTransformFrom n (i + xs.length) ys := by
  intro xs
  induction xs with
  | nil => intro ys i; simp [codeTransformFrom]
  | cons d rest ih =>
    intro ys i
    simp only [List.cons_append, codeTransformFrom, List.append_eq, List.length_cons]
    rw [ih ys (i + 1), show i + (rest.length + 1) = i + 1 + rest.length by omega]

theorem codeTransformFrom_shift :
    ∀ (xs : List Nat) (n i : Nat), i + xs.length = n →
      codeTransformFrom (n + 2) i xs = codeTransformFrom n i xs := by
  intro xs
  induction xs with
  | nil => intro n i _; rfl
  | cons d rest ih =>
    intro n i h
    simp only [List.length_cons] at h
    simp only [codeTransformFrom]
    rw [if_congr (show (i + 2 ≤ n + 2 ∧ (n + 2 - i) % 2 = 0) ↔ (i + 2 ≤ n ∧ (n - i) % 2 = 0) by
      omega) rfl rfl]
    rw [ih n (i + 1) (by omega)]

theorem codeTransform_append_pair (xs : List Nat) (b a : Nat) :
    codeTransform (xs ++ [b, a]) = codeTransform xs ++ [luhnDouble b, a] := by
  simp only [codeTransform, List.length_append, List.length_cons, List.length_nil]
  rw [codeTransformFrom_append (xs.length + (0 + 1 + 1)) xs [b, a] 0]
  rw [show xs.length + (0 + 1 + 1) = xs.length + 2 by omega]
  rw [codeTransformFrom_shift xs xs.length 0 (by omega)]
  congr 1
  simp only [codeTransformFrom]
  rw [if_pos (show 0 + xs.length + 2 ≤ xs.length + 2 ∧ (xs.length + 2 - (0 + xs.length)) % 2 = 0 by omega)]
  rw [if_neg (show ¬(0 + xs.length + 1 + 2 ≤ xs.length + 2 ∧ (xs.length + 2 - (0 + xs.length + 1)) % 2 = 0) by omega)]

theorem codeTransform_reverse_eq_spec :
    ∀ R : List Nat, codeTransform R.reverse = (luhnSpecTransform R).reverse := by
  intro R
  induction R using luhnSpecTransform.induct with
  | case1 => rfl
  | case2 d => rfl
  | case3 d0 d1 rest ih =>
    have hrev : (d0 :: d1 :: rest).reverse = rest.reverse ++ [d1, d0] := by
      simp
    rw [hrev, codeTransform_append_pair, ih, luhnSpecTransform]
    simp

theorem codeTransform_sum_eq_spec (ds : List Nat) :
    (codeTransform ds).sum = (luhnSpecTransform ds.reverse).sum := by
  have h := codeTransform_reverse_eq_spec ds.reverse
  rw [List.reverse_reverse] at h
  rw [h, List.sum_reverse]

/-! ## Digit parsing -/

theorem parseDigits_of_all_digits :
    ∀ cs : List Char, (∀ c ∈ cs, '0' ≤ c ∧ c ≤ '9') →
      parseDigits cs = some (cs.map fun c => c.toNat - '0'.toNat) := by
  intro cs
  induction cs with
  | nil => intro _; rfl
  | cons c rest ih =>
    intro h
    have hc : charToDigit c = some (c.toNat - '0'.toNat) := by
      simp [charToDigit, h c (List.mem_cons_self c rest)]
    simp [parseDigits, hc, ih fun x hx => h x (List.mem_cons_of_mem c hx)]

theorem parseDigits_of_nondigit :
    ∀ (cs : List Char) (c : Char), c ∈ cs → ¬('0' ≤ c ∧ c ≤ '9') →
      parseDigits cs = none := by
  intro cs
  induction cs with
  | nil => intro c hc; simp at hc
  | cons d rest ih =>
    intro c hc hnd
    rcases List.mem_cons.mp hc with h | h
    · have hd : charToDigit d = none := by
        subst h; simp [charToDigit, hnd]
      cases hrest : parseDigits rest <;> simp [parseDigits, hd, hrest]
    · cases hd : charToDigit d <;> simp [parseDigits, hd, ih c h hnd]

/-! ## Helper characterizations of CalcNutritionalScore -/

/-- The negative subtotal computed on line 155 of nutritionalscore.go. -/
def negativePoints (n : NutritionalData) : Int :=
  EnergyKJ.GetPoints n.Energy n.FoodType + SugarGram.GetPoints n.Sugars n.FoodType
    + SaturatedFattyAcids.GetPoints n.SaturatedFattyAcids n.FoodType
    + SodiumMilligram.GetPoints n.Sodium n.FoodType

/-- The positive subtotal computed on line 156 of nutritionalscore.go. -/
def positivePoints (n : NutritionalData) : Int :=
  FruitsPercent.GetPoints n.Fruits n.FoodType + FiberGram.GetPoints n.Fiber n.FoodType
    + ProteinGram.GetPoints n.Protein n.FoodType

theorem negative_of_ne_water (n : NutritionalData) (h : n.FoodType ≠ Water) :
    (CalcNutritionalScore n).Negative = negativePoints n := by
  simp [CalcNutritionalScore, negativePoints, h]

theorem positive_of_ne_water (n : NutritionalData) (h : n.FoodType ≠ Water) :
    (CalcNutritionalScore n).Positive = positivePoints n := by
  simp [CalcNutritionalScore, positivePoints, h]

theorem value_of_ne_water (n : NutritionalData) (h : n.FoodType ≠ Water) :
    (CalcNutritionalScore n).Value =
      if n.FoodType = Cheese then negativePoints n - positivePoints n
      else if negativePoints n ≥ 11 ∧ FruitsPercent.GetPoints n.Fruits n.FoodType < 5 then
        negativePoints n - FiberGram.GetPoints n.Fiber n.FoodType
          - FruitsPercent.GetPoints n.Fruits n.FoodType
      else negativePoints n - positivePoints n := by
  simp [CalcNutritionalScore, negativePoints, positivePoints, h]

theorem energyGetPoints_mono {v w : ℚ} (h : v ≤ w) (st : ScoreType) :
    EnergyKJ.GetPoints v st ≤ EnergyKJ.GetPoints w st := by
  unfold EnergyKJ.GetPoints
  split <;> exact getPointsFromRange_mono h _

theorem sugarGetPoints_mono {v w : ℚ} (h : v ≤ w) (st : ScoreType) :
    SugarGram.GetPoints v st ≤ SugarGram.GetPoints w st := by
  unfold SugarGram.GetPoints
  split <;> exact getPointsFromRange_mono h _

theorem gradeAt_mem (xs : List String) (i : Int) (h0 : 0 ≤ i) (hl : i.toNat < xs.length) :
    gradeAt xs i ∈ xs := by
  rw [gradeAt, dif_pos ⟨h0, hl⟩]
  exact List.get_mem xs i.toNat hl

/-! ## Claim theorems -/

/-- The Food sample of claim C1: energy 3370 kJ, every other nutrient 0. -/
def c1FoodSample : NutritionalData :=
  { Energy := 3370, Sugars := 0, SaturatedFattyAcids := 0, Sodium := 0,
    Fruits := 0, Fiber := 0, Protein := 0, IsWater := false, FoodType := Food }

/-- C1, counterexample: on the Food sample with energy 3370 kJ and all other
nutrients 0, the computed grade is not "B" as the claim states (negative,
positive and score do come out as 10, 0 and 10, but the grade is "C": the
Food grade table {18, 10, 2, -1} is searched with strict `>`, and 10 is not
greater than 10, so the lookup lands on the 2-threshold tier, index 2). -/
theorem c1_food_sample_counterexample :
    ¬ ((CalcNutritionalScore c1FoodSample).Negative = 10 ∧
       (CalcNutritionalScore c1FoodSample).Positive = 0 ∧
       (CalcNutritionalScore c1FoodSample).Value = 10 ∧
       (CalcNutritionalScore c1FoodSample).Grade = "B") := by decide

/-- C1, amended: on the Food sample with energy 3370 kJ and all other
nutrients 0, CalcNutritionalScore returns negative points 10, positive
points 0, score value 10, and grade "C". -/
theorem c1_food_sample_amended :
    CalcNutritionalScore c1FoodSample =
      { Value := 10, Grade := "C", Positive := 0, Negative := 10, ScoreType := Food } := by decide

/-- C2: every input whose category tag is Water yields score value 0 and
grade "A", whatever the other fields hold. -/
theorem c2_water_always_grade_A (n : NutritionalData) (h : n.FoodType = Water) :
    (CalcNutritionalScore n).Value = 0 ∧ (CalcNutritionalScore n).Grade = "A" := by
  have hfw : n.FoodType ≠ Food := by rw [h]; decide
  simp [CalcNutritionalScore, NutritionalData.CalcNutriGrade, h, hfw, gradeAt, gradeScale, Water, Food]

/-- A Water-tagged sample with junk in every other field. -/
def waterSample : NutritionalData :=
  { Energy := 9999, Sugars := 50, SaturatedFattyAcids := 20, Sodium := 5000,
    Fruits := 100, Fiber := 10, Protein := 10, IsWater := false, FoodType := Water }

theorem c2_witness :
    (CalcNutritionalScore waterSample).Value = 0 ∧
      (CalcNutritionalScore waterSample).Grade = "A" :=
  c2_water_always_grade_A waterSample (by decide)

/-- C3: on all-digit input the validator computes exactly the described
walk (double every other digit leftward from the second-to-last, subtract
9 from doubled values above 9, sum everything, valid iff the sum is a
multiple of 10), and the two card numbers from the spec check out. -/
theorem c3_luhn_matches_spec :
    (∀ s : String, (∀ c ∈ s.data, '0' ≤ c ∧ c ≤ '9') →
        IsValid s = luhnSpecValid (s.data.map fun c => c.toNat - '0'.toNat)) ∧
    IsValid "4539148803436467" = true ∧ IsValid "4539148803436468" = false := by
  refine ⟨?_, by decide, by decide⟩
  intro s h
  have hsum := codeTransform_sum_eq_spec (s.data.map fun c => c.toNat - 48)
  simp [IsValid, luhnAlgorithm, luhnSpecValid, parseDigits_of_all_digits s.data h, hsum]

theorem c3_witness :
    IsValid "18" = luhnSpecValid (("18" : String).data.map fun c => c.toNat - '0'.toNat) :=
  c3_luhn_matches_spec.1 "18" (by decide)

/-- C6: any input string containing a non-digit character is rejected with
the ordinary `false` result (the embedding is a total function: no error
value exists to propagate), and in particular "12a4" is rejected. -/
theorem c6_nondigit_returns_false :
    (∀ s : String, (∃ c ∈ s.data, ¬('0' ≤ c ∧ c ≤ '9')) → IsValid s = false) ∧
    IsValid "12a4" = false := by
  refine ⟨?_, by decide⟩
  rintro s ⟨c, hc, hnd⟩
  unfold IsValid luhnAlgorithm
  rw [parseDigits_of_nondigit s.data c hc hnd]

theorem c6_witness : IsValid "a1" = false :=
  c6_nondigit_returns_false.1 "a1" ⟨'a', by decide, by decide⟩

/-- C7: the validator accepts the empty string (digit sum 0, a multiple of 10). -/
theorem c7_empty_string_valid : IsValid "" = true := by decide

/-- C10: the IsWater field is dead: flipping it never changes any part of
the result of CalcNutritionalScore. -/
theorem c10_iswater_no_effect (n : NutritionalData) (b : Bool) :
    CalcNutritionalScore { n with IsWater := b } = CalcNutritionalScore n := by
  cases n
  rfl

/-- C4: the generic lookup returns `len(levels) - i` at the first index `i`
whose threshold is strictly exceeded, 0 when no threshold is exceeded; and
the energy and sugar lookups use the beverage tables exactly when the
category is Beverage, the general tables otherwise. -/
theorem c4_lookup_first_index :
    (∀ (v : ℚ) (levels : List ℚ),
        ((∀ l ∈ levels, ¬ v > l) → getPointsFromRange v levels = 0) ∧
        (∀ (i : Nat) (hi : i < levels.length), (∀ l ∈ levels.take i, ¬ v > l) →
            v > levels.get ⟨i, hi⟩ →
            getPointsFromRange v levels = (levels.length : Int) - (i : Int))) ∧
    (∀ (e : ℚ) (st : ScoreType),
        (st = Beverage → EnergyKJ.GetPoints e st = getPointsFromRange e energyLevelsBeverage) ∧
        (st ≠ Beverage → EnergyKJ.GetPoints e st = getPointsFromRange e energyLevels)) ∧
    (∀ (s : ℚ) (st : ScoreType),
        (st = Beverage → SugarGram.GetPoints s st = getPointsFromRange s sugarsLevelsBeverage) ∧
        (st ≠ Beverage → SugarGram.GetPoints s st = getPointsFromRange s sugarsLevels)) := by
  refine ⟨?_, ?_, ?_⟩
  · intro v levels
    constructor
    · intro hall
      exact getPointsFromRangeAux_of_forall_le v levels.length levels 0 hall
    · intro i hi htake hget
      have := getPointsFromRangeAux_first_hit v levels.length levels 0 i hi htake hget
      rw [getPointsFromRange, this]
      omega
  · intro e st
    constructor <;> intro hst <;> simp [EnergyKJ.GetPoints, hst]
  · intro s st
    constructor <;> intro hst <;> simp [SugarGram.GetPoints, hst]

theorem c4_witness :
    getPointsFromRange (5 : ℚ) [10, 3] = (([10, 3] : List ℚ).length : Int) - (1 : Int) ∧
    EnergyKJ.GetPoints 100 Beverage = getPointsFromRange 100 energyLevelsBeverage ∧
    SugarGram.GetPoints 5 Food = getPointsFromRange 5 sugarsLevels :=
  ⟨(c4_lookup_first_index.1 5 [10, 3]).2 1 (by decide) (by decide) (by decide),
   (c4_lookup_first_index.2.1 100 Beverage).1 rfl,
   (c4_lookup_first_index.2.2 5 Food).2 (by decide)⟩

/-- C5: for non-Water categories, Cheese always scores `negative - positive`;
every other category applies the override `negative - fiber - fruit` exactly
when `negative ≥ 11` and the fruit points are below 5 (protein excluded from
the offset), and `negative - positive` otherwise. -/
theorem c5_combination_rule (n : NutritionalData) (h : n.FoodType ≠ Water) :
    (n.FoodType = Cheese →
        (CalcNutritionalScore n).Value =
          (CalcNutritionalScore n).Negative - (CalcNutritionalScore n).Positive) ∧
    (n.FoodType ≠ Cheese →
        ((CalcNutritionalScore n).Negative ≥ 11 ∧ FruitsPercent.GetPoints n.Fruits n.FoodType < 5 →
            (CalcNutritionalScore n).Value = (CalcNutritionalScore n).Negative
              - FiberGram.GetPoints n.Fiber n.FoodType - FruitsPercent.GetPoints n.Fruits n.FoodType) ∧
        (¬((CalcNutritionalScore n).Negative ≥ 11 ∧ FruitsPercent.GetPoints n.Fruits n.FoodType < 5) →
            (CalcNutritionalScore n).Value =
              (CalcNutritionalScore n).Negative - (CalcNutritionalScore n).Positive)) := by
  rw [negative_of_ne_water n h, positive_of_ne_water n h, value_of_ne_water n h]
  constructor
  · intro hc
    rw [if_pos hc]
  · intro hc
    rw [if_neg hc]
    constructor
    · intro hcond
      rw [if_pos hcond]
    · intro hcond
      rw [if_neg hcond]

/-- A Cheese-tagged sample whose negative total reaches the override band. -/
def cheeseSample : NutritionalData :=
  { Energy := 3400, Sugars := 46, SaturatedFattyAcids := 11, Sodium := 950,
    Fruits := 0, Fiber := 5, Protein := 9, IsWater := false, FoodType := Cheese }

theorem c5_witness :
    (CalcNutritionalScore cheeseSample).Value =
      (CalcNutritionalScore cheeseSample).Negative - (CalcNutritionalScore cheeseSample).Positive :=
  (c5_combination_rule cheeseSample (by decide)).1 (by decide)

/-- C8: raising any one of the four negative-side nutrient values (energy,
sugar, saturated fat, sodium) never lowers the negative point subtotal. -/
theorem c8_negative_monotone (n : NutritionalData) (v : ℚ) :
    (n.Energy ≤ v →
      (CalcNutritionalScore n).Negative ≤ (CalcNutritionalScore { n with Energy := v }).Negative) ∧
    (n.Sugars ≤ v →
      (CalcNutritionalScore n).Negative ≤ (CalcNutritionalScore { n with Sugars := v }).Negative) ∧
    (n.SaturatedFattyAcids ≤ v →
      (CalcNutritionalScore n).Negative ≤
        (CalcNutritionalScore { n with SaturatedFattyAcids := v }).Negative) ∧
    (n.Sodium ≤ v →
      (CalcNutritionalScore n).Negative ≤ (CalcNutritionalScore { n with Sodium := v }).Negative) := by
  by_cases hw : n.FoodType = Water
  · refine ⟨fun _ => ?_, fun _ => ?_, fun _ => ?_, fun _ => ?_⟩ <;>
      simp [CalcNutritionalScore, hw]
  · refine ⟨fun hle => ?_, fun hle => ?_, fun hle => ?_, fun hle => ?_⟩ <;>
      rw [negative_of_ne_water n hw, negative_of_ne_water _ (by simpa using hw)] <;>
      simp only [negativePoints] <;>
      [have hm := energyGetPoints_mono hle n.FoodType;
       have hm := sugarGetPoints_mono hle n.FoodType;
       have hm := getPointsFromRange_mono hle saturatedFattyAcidsLevels;
       have hm := getPointsFromRange_mono hle sodiumLevels] <;>
      simp only [SaturatedFattyAcids.GetPoints, SodiumMilligram.GetPoints] at * <;>
      omega

/-- A Food sample used to instantiate the monotonicity statement. -/
def c8Sample : NutritionalData :=
  { Energy := 300, Sugars := 5, SaturatedFattyAcids := 2, Sodium := 100,
    Fruits := 50, Fiber := 2, Protein := 3, IsWater := false, FoodType := Food }

theorem c8_witness :
    (CalcNutritionalScore c8Sample).Negative ≤
        (CalcNutritionalScore { c8Sample with Energy := 5000 }).Negative ∧
    (CalcNutritionalScore c8Sample).Negative ≤
        (CalcNutritionalScore { c8Sample with Sugars := 50 }).Negative ∧
    (CalcNutritionalScore c8Sample).Negative ≤
        (CalcNutritionalScore { c8Sample with SaturatedFattyAcids := 50 }).Negative ∧
    (CalcNutritionalScore c8Sample).Negative ≤
        (CalcNutritionalScore { c8Sample with Sodium := 5000 }).Negative :=
  ⟨(c8_negative_monotone c8Sample 5000).1 (by decide),
   (c8_negative_monotone c8Sample 50).2.1 (by decide),
   (c8_negative_monotone c8Sample 50).2.2.1 (by decide),
   (c8_negative_monotone c8Sample 5000).2.2.2 (by decide)⟩

/-- C9: for every input (any integer category tag, any score) the grade
lookup index stays within [0, 4], so CalcNutriGrade always lands inside the
five-letter grade scale and the indexing cannot go out of bounds. -/
theorem c9_grade_always_in_scale (n : NutritionalData) (score : Int) :
    (0 ≤ getPointsFromRange (score : ℚ) [18, 10, 2, -1] ∧
        getPointsFromRange (score : ℚ) [18, 10, 2, -1] ≤ 4) ∧
    (0 ≤ getPointsFromRange (score : ℚ) [9, 5, 1, -2] ∧
        getPointsFromRange (score : ℚ) [9, 5, 1, -2] ≤ 4) ∧
    n.CalcNutriGrade score ∈ gradeScale := by
  have h1 := getPointsFromRange_bounds (score : ℚ) [18, 10, 2, -1]
  have h2 := getPointsFromRange_bounds (score : ℚ) [9, 5, 1, -2]
  simp only [List.length_cons, List.length_nil, Nat.cast_ofNat] at h1 h2
  have hlen : gradeScale.length = 5 := by decide
  refine ⟨⟨h1.1, by omega⟩, ⟨h2.1, by omega⟩, ?_⟩
  unfold NutritionalData.CalcNutriGrade
  split
  · exact gradeAt_mem gradeScale _ h1.1 (by omega)
  · split
    · exact gradeAt_mem gradeScale 0 (by omega) (by omega)
    · exact gradeAt_mem gradeScale _ h2.1 (by omega)
